import Mathlib

/-!
Verification of the VideoMixer batch video-combination service.

The embedding below translates the three JavaScript sources:
  - `src/index.js`, first variant (lines 1-192): the asynchronous
    `/upload` handler, the sequential `processVideos` loop with a
    `finally` cleanup block, and the persisted status store
    (`saveStatus` / `getStatus`).
  - `src/index.js`, second variant (lines 193-384): same handler, but
    its `processVideos` has no cleanup of uploaded files.
  - `src/unnamed/part_000`: the synchronous `/combine` handler that
    launches all jobs at once with `Promise.all` and answers only after
    the whole batch settles.

Effects of the outside world (the ffmpeg subprocess, filesystem write
failures) are passed in explicitly as an environment, so every function
is executable and every run of the embedded code is a plain value.
-/

namespace VideoMixer

/-- One uploaded file as multer hands it to the handlers: the
client-supplied `originalname` and the server-side storage `path`. -/
structure UploadedFile where
  originalname : String
  path : String
deriving DecidableEq, Repr, Inhabited

/-- `resultsDir` from `src/index.js` line 13. -/
def resultsDir : String := "/tmp/results"

/-- `uploadsDir` from `src/index.js` line 12. -/
def uploadsDir : String := "/tmp/uploads"

/-- `path.join` for the two-argument uses in this code base (all
arguments are non-empty and slash-free on the right). -/
def pathJoin (a b : String) : String := a ++ "/" ++ b

/-- Index of the last dot in a list of characters, if any. -/
def lastDot : List Char → Option Nat
  | [] => none
  | c :: cs =>
    match lastDot cs with
    | some i => some (i + 1)
    | none => if c = '.' then some 0 else none

/-- Characters after the last `/`, by a single left-to-right pass. -/
def afterLastSlashChars (cs : List Char) : List Char :=
  cs.foldl (fun acc c => if c = '/' then [] else acc ++ [c]) []

/-- Last path component, as Node's `path.parse` takes it. -/
def afterLastSlash (s : String) : String :=
  String.mk (afterLastSlashChars s.data)

/-- Drop the final extension of a base name; a dot at position 0 starts
no extension (Node keeps `.bashrc` whole). -/
def dropLastExt (s : String) : String :=
  match lastDot s.data with
  | some i => if i = 0 then s else String.mk (s.data.take i)
  | none => s

/-- `path.parse(p).name`: base name without its final extension. -/
def parseNameOf (s : String) : String := dropLastExt (afterLastSlash s)

/-- The destination file name of one combination job, from
`src/index.js` lines 143-145 (same string in both variants and in
`src/unnamed/part_000` lines 96-98). -/
def outputName (hook body : UploadedFile) : String :=
  "comb_" ++ parseNameOf hook.originalname ++ "_" ++
    parseNameOf body.originalname ++ ".mp4"

/-- One enumerated combination job: its position in the hook and body
lists and the two source files. -/
structure JobSpec where
  hookIdx : Nat
  bodyIdx : Nat
  hook : UploadedFile
  body : UploadedFile
deriving DecidableEq, Repr, Inhabited

/-- The cartesian product of hooks and bodies in the order the nested
`for` loops of `processVideos` visit it (hooks outer, bodies inner). -/
def jobList (hooks bodies : List UploadedFile) : List JobSpec :=
  hooks.enum.flatMap fun h =>
    bodies.enum.map fun b => ⟨h.1, b.1, h.2, b.2⟩

/-- The environment of one batch run: the outcome the outside world
gives each job's ffmpeg invocation (`none` is success, `some m` a
rejection with message `m`), and whether the report write and the zip
step throw. -/
structure Env where
  combineErr : Nat → Nat → Option String
  reportErr : Option String
  zipErr : Option String

/-- The record of one attempted job: the job, the destination name and
full path it used, and whether its combine invocation succeeded. -/
structure JobOutcome where
  job : JobSpec
  outName : String
  outPath : String
  ok : Bool
deriving DecidableEq, Repr, Inhabited

/-- The per-job loop body of `processVideos` (`src/index.js` lines
141-157): every enumerated job is attempted, its name is derived from
the original file names, and a failure is caught and recorded rather
than propagated. -/
def runJobs (env : Env) (taskDir : String) (hooks bodies : List UploadedFile) :
    List JobOutcome :=
  (jobList hooks bodies).map fun j =>
    ⟨j, outputName j.hook j.body, pathJoin taskDir (outputName j.hook j.body),
      (env.combineErr j.hookIdx j.bodyIdx).isNone⟩

/-- Task status as stored in `status.json`. -/
inductive TaskState
  | processing
  | done
  | error
deriving DecidableEq, Repr

/-- The JSON object passed to `saveStatus`: the fields the three call
sites use, absent ones being `none`. -/
structure StatusRecord where
  status : TaskState
  downloadUrl : Option String
  message : Option String
  success : Option Nat
  total : Option Nat
deriving DecidableEq, Repr

/-- The record `saveStatus(taskId, { status: "processing" })` persists
when a submission is accepted (`src/index.js` line 113). -/
def processingRecord : StatusRecord := ⟨TaskState.processing, none, none, none, none⟩

/-- Writing a file into a directory modelled as a duplicate-free list
of names: a second write to the same name overwrites, adding nothing. -/
def writeFile (dir : List String) (nm : String) : List String :=
  if nm ∈ dir then dir else dir ++ [nm]

/-- Everything observable about one `processVideos` run: the last
status record it saved, the attempted jobs, the upload paths removed by
the cleanup, and the task-directory listing at the moment the zip was
taken (`none` when the run erred before zipping). -/
structure ProcResult where
  finalStatus : StatusRecord
  jobs : List JobOutcome
  removed : List String
  zipEntries : Option (List String)
deriving Repr

/-- `processVideos` of the first `src/index.js` variant (lines
133-185): run every job sequentially, write the report, zip the task
directory, save the `done` record with `success` and
`total = hooks.length * bodies.length`; on a report or zip exception
save an `error` record instead; in all cases the `finally` block
removes every uploaded file's path. `dir0` is the task directory's
content on entry (the upload handler has already written
`status.json` into it). -/
def processVideos (env : Env) (taskId : String)
    (hooks bodies : List UploadedFile) (dir0 : List String) : ProcResult :=
  let taskDir := pathJoin resultsDir taskId
  let jobs := runJobs env taskDir hooks bodies
  let successCount := jobs.countP fun o => o.ok
  let total := hooks.length * bodies.length
  let dirJobs := jobs.foldl (fun d o => if o.ok then writeFile d o.outName else d) dir0
  let removed := (hooks ++ bodies).map fun f => f.path
  match env.reportErr with
  | some m => ⟨⟨TaskState.error, none, some m, none, none⟩, jobs, removed, none⟩
  | none =>
    let dirR := writeFile dirJobs "report.txt"
    match env.zipErr with
    | some m => ⟨⟨TaskState.error, none, some m, none, none⟩, jobs, removed, none⟩
    | none =>
      ⟨⟨TaskState.done, some ("/results/" ++ taskId ++ ".zip"), none,
          some successCount, some total⟩,
        jobs, removed, some dirR⟩

/-- `processVideos` of the second `src/index.js` variant (lines
333-377): identical job loop, report, zip and status records, but no
`finally` block — no uploaded file is ever removed. -/
def processVideos2 (env : Env) (taskId : String)
    (hooks bodies : List UploadedFile) (dir0 : List String) : ProcResult :=
  let taskDir := pathJoin resultsDir taskId
  let jobs := runJobs env taskDir hooks bodies
  let successCount := jobs.countP fun o => o.ok
  let total := hooks.length * bodies.length
  let dirJobs := jobs.foldl (fun d o => if o.ok then writeFile d o.outName else d) dir0
  match env.reportErr with
  | some m => ⟨⟨TaskState.error, none, some m, none, none⟩, jobs, [], none⟩
  | none =>
    let dirR := writeFile dirJobs "report.txt"
    match env.zipErr with
    | some m => ⟨⟨TaskState.error, none, some m, none, none⟩, jobs, [], none⟩
    | none =>
      ⟨⟨TaskState.done, some ("/results/" ++ taskId ++ ".zip"), none,
          some successCount, some total⟩,
        jobs, [], some dirR⟩

/-- An environment in which every ffmpeg invocation and every
filesystem step succeeds. -/
def envAllOk : Env := ⟨fun _ _ => none, none, none⟩

/-- An environment in which every ffmpeg invocation rejects and the
report and zip steps succeed. -/
def envAllFail : Env := ⟨fun _ _ => some "ffmpeg exited with code 1", none, none⟩

/-- An environment in which every job succeeds but the report write
throws. -/
def envReportFail : Env := ⟨fun _ _ => none, some "disk full", none⟩

/-! Basic lemmas about the job enumeration. -/

lemma flatMap_const_length {α : Type} (l : List (Nat × α)) (f : Nat × α → List JobSpec)
    (n : Nat) (hf : ∀ x, (f x).length = n) :
    (l.flatMap f).length = l.length * n := by
  induction l with
  | nil => simp
  | cons x xs ih =>
    simp only [List.flatMap_cons, List.length_append, hf, ih, List.length_cons]
    ring

/-- The nested loops enumerate exactly `H * B` jobs. -/
lemma jobList_length (hooks bodies : List UploadedFile) :
    (jobList hooks bodies).length = hooks.length * bodies.length := by
  unfold jobList
  rw [flatMap_const_length _ _ bodies.length]
  · simp [List.enum_length]
  · intro x
    simp [List.enum_length]

/-- Every attempted-job list has exactly `H * B` entries. -/
lemma runJobs_length (env : Env) (taskDir : String) (hooks bodies : List UploadedFile) :
    (runJobs env taskDir hooks bodies).length = hooks.length * bodies.length := by
  unfold runJobs
  rw [List.length_map, jobList_length]

/-! The persisted status store (`saveStatus` / `getStatus`,
`src/index.js` lines 76-93) and the two HTTP handlers. -/

/-- The on-disk state of one task's `status.json`: `none` when the file
does not exist, `some (Except.error m)` when it exists but
`readJsonSync` throws, `some (Except.ok r)` when it parses. -/
abbrev StatusFile : Type := Option (Except String StatusRecord)

/-- `getStatus` (`src/index.js` lines 83-93): `null` when the file is
missing, and `null` again when `readJsonSync` throws in the
`try/catch`; the parsed record otherwise. -/
def getStatus (file : StatusFile) : Option StatusRecord :=
  match file with
  | none => none
  | some (Except.error _) => none
  | some (Except.ok r) => some r

/-- The response of `GET /status/:taskId`. -/
inductive StatusResp
  | notFound
  | okJson (r : StatusRecord)
deriving DecidableEq, Repr

/-- The `/status/:taskId` handler (`src/index.js` lines 125-129):
404 when `getStatus` is `null`, otherwise the record as JSON. -/
def statusHandler (file : StatusFile) : StatusResp :=
  match getStatus file with
  | none => StatusResp.notFound
  | some r => StatusResp.okJson r

/-- The whole persisted store, keyed by task identifier. -/
abbrev StatusStore : Type := String → StatusFile

/-- A store in which no task was ever submitted. -/
def emptyStore : StatusStore := fun _ => none

/-- The store right after the `/upload` handler accepted a submission
and ran `saveStatus(taskId, { status: "processing" })`
(`src/index.js` line 113). -/
def storeAfterSubmit (store : StatusStore) (taskId : String) : StatusStore :=
  fun t => if t = taskId then some (Except.ok processingRecord) else store t

/-- The response of `POST /upload` (`src/index.js` lines 95-123). -/
inductive UploadResp
  | badRequest (msg : String)
  | accepted (msg : String) (taskId : String)
deriving DecidableEq, Repr

/-- What `POST /upload` does, observed at the moment its response is
sent: the response itself, the persisted record at that moment, and the
processing run it has started but not awaited. `processVideos` is
called with `.catch`, never `await`, so the response and the record at
response time do not depend on the run's outcome; the task directory
already holds `status.json` when `processVideos` starts. -/
structure SubmitOutcome where
  response : UploadResp
  statusAtResponse : StatusFile
  proc : Option ProcResult

/-- The `/upload` handler (`src/index.js` lines 95-123): 400 when a
list is empty; otherwise save `processing`, start `processVideos`
asynchronously, and answer 202 at once. -/
def uploadSubmit (env : Env) (taskId : String)
    (hooks bodies : List UploadedFile) : SubmitOutcome :=
  if hooks.length = 0 ∨ bodies.length = 0 then
    ⟨UploadResp.badRequest "Send at least 1 hook and 1 body video.", none, none⟩
  else
    ⟨UploadResp.accepted "Upload received" taskId,
      some (Except.ok processingRecord),
      some (processVideos env taskId hooks bodies ["status.json"])⟩

/-- The response of `POST /combine` in `src/unnamed/part_000`. -/
inductive CombineResp
  | badRequest (msg : String)
  | okZip (msg : String) (zipPath : String)
  | serverError (details : String)
deriving DecidableEq, Repr

/-- Everything observable about one `/combine` request of
`src/unnamed/part_000`: the response and the upload paths removed. -/
structure CombineOutcome where
  response : CombineResp
  jobs : List JobOutcome
  removed : List String

/-- The `/combine` handler of `src/unnamed/part_000` (lines 66-137):
run all jobs (failures caught per job), write the report, zip, remove
the uploads, and only then answer 200 with the zip path; any exception
in those steps reaches the outer `catch`, which answers 500 with the
error's message — and skips the upload removal. -/
def combineHandler (env : Env) (stamp : String)
    (hooks bodies : List UploadedFile) : CombineOutcome :=
  if hooks.length = 0 ∨ bodies.length = 0 then
    ⟨CombineResp.badRequest "Please upload both hook and body videos", [], []⟩
  else
    let runFolder := pathJoin resultsDir stamp
    let jobs := runJobs env runFolder hooks bodies
    match env.reportErr with
    | some m => ⟨CombineResp.serverError m, jobs, []⟩
    | none =>
      match env.zipErr with
      | some m => ⟨CombineResp.serverError m, jobs, []⟩
      | none =>
        ⟨CombineResp.okZip "Videos processed!"
            (pathJoin resultsDir ("videos_" ++ stamp ++ ".zip")),
          jobs, (hooks ++ bodies).map fun f => f.path⟩

/-! Instant-by-instant concurrency of the two job schedulers.

A batch run is flattened into the sequence of ffmpeg start and finish
events it produces; the occupancy profile lists, after each event, how
many invocations are running. -/

/-- A start or finish of job number `i`'s ffmpeg invocation. -/
inductive JobEvent
  | start (i : Nat)
  | finish (i : Nat)
deriving DecidableEq, Repr

/-- Number of running invocations after one more event. -/
def stepCount (cur : Nat) : JobEvent → Nat
  | JobEvent.start _ => cur + 1
  | JobEvent.finish _ => cur - 1

/-- The running count after a whole event sequence. -/
def countAfter (cur : Nat) (es : List JobEvent) : Nat :=
  es.foldl stepCount cur

/-- The occupancy profile: the running count after each event of the
sequence in turn. -/
def profile (cur : Nat) : List JobEvent → List Nat
  | [] => []
  | e :: es => stepCount cur e :: profile (stepCount cur e) es

/-- The event sequence of the sequential loop of `processVideos`
(`src/index.js` lines 141-157): each job's invocation is awaited
before the next one starts. -/
def seqSchedule : Nat → List JobEvent
  | 0 => []
  | n + 1 => seqSchedule n ++ [JobEvent.start n, JobEvent.finish n]

/-- Start events of jobs `0 .. n-1` in order. -/
def startsList : Nat → List JobEvent
  | 0 => []
  | n + 1 => startsList n ++ [JobEvent.start n]

/-- Finish events of jobs `0 .. n-1` in order. -/
def finishList : Nat → List JobEvent
  | 0 => []
  | n + 1 => finishList n ++ [JobEvent.finish n]

/-- One possible event sequence of the `Promise.all` scheduler of
`src/unnamed/part_000` (lines 91-110): the synchronous `for` loops call
`combineVideos` — and hence `exec`, which spawns the child at once —
for every job before the event loop can deliver any completion, so all
starts precede all finishes; the finish order shown is one admissible
completion order. -/
def allAtOnceSchedule (n : Nat) : List JobEvent :=
  startsList n ++ finishList n

/-- The event sequence the first `src/index.js` variant produces for a
given submission. -/
def processVideosSchedule (hooks bodies : List UploadedFile) : List JobEvent :=
  seqSchedule (jobList hooks bodies).length

/-- The event sequence `src/unnamed/part_000` produces for a given
submission (one admissible completion order). -/
def combineAllSchedule (hooks bodies : List UploadedFile) : List JobEvent :=
  allAtOnceSchedule (jobList hooks bodies).length

/-! The destination file across one `combineVideos` call
(`src/index.js` lines 48-64 with `runCommand`, lines 27-46). -/

/-- Content of the destination path. -/
inductive FileContent
  | absent
  | truncated
  | complete
deriving DecidableEq, Repr

/-- What the ffmpeg subprocess did before `runCommand` settled:
exited 0 having written the complete output; failed (non-zero exit, or
the 5-minute timeout kill) after opening and writing part of the
destination; or failed before creating the destination at all. -/
inductive FfmpegResult
  | wroteComplete
  | failedAfterWrite (msg : String)
  | failedNoWrite (msg : String)
deriving DecidableEq, Repr

/-- One `combineVideos` call as seen at the destination path: the
returned promise settles exactly as `runCommand` does, and neither
`combineVideos` nor the rejection path of `runCommand` touches the
destination file, so its content is whatever the subprocess left. -/
def combineVideosFs (r : FfmpegResult) (prev : FileContent) :
    Except String Unit × FileContent :=
  match r with
  | FfmpegResult.wroteComplete => (Except.ok (), FileContent.complete)
  | FfmpegResult.failedAfterWrite m => (Except.error m, FileContent.truncated)
  | FfmpegResult.failedNoWrite m => (Except.error m, prev)

/-! Helper lemmas. -/

lemma profile_append (cur : Nat) (l1 l2 : List JobEvent) :
    profile cur (l1 ++ l2) = profile cur l1 ++ profile (countAfter cur l1) l2 := by
  induction l1 generalizing cur with
  | nil => simp [profile, countAfter]
  | cons e es ih => simp [profile, countAfter, List.foldl_cons, ih]

lemma countAfter_append (cur : Nat) (l1 l2 : List JobEvent) :
    countAfter cur (l1 ++ l2) = countAfter (countAfter cur l1) l2 := by
  simp [countAfter, List.foldl_append]

lemma countAfter_seqSchedule (n : Nat) : countAfter 0 (seqSchedule n) = 0 := by
  induction n with
  | zero => rfl
  | succ n ih => rw [seqSchedule, countAfter_append, ih]; rfl

lemma profile_seqSchedule_le_one (n : Nat) :
    ∀ c ∈ profile 0 (seqSchedule n), c ≤ 1 := by
  induction n with
  | zero => intro c hc; simp [seqSchedule, profile] at hc
  | succ n ih =>
    intro c hc
    rw [seqSchedule, profile_append, countAfter_seqSchedule] at hc
    rcases List.mem_append.mp hc with h | h
    · exact ih c h
    · simp [profile, stepCount] at h
      rcases h with h | h <;> omega

lemma countAfter_startsList (cur n : Nat) :
    countAfter cur (startsList n) = cur + n := by
  induction n with
  | zero => rfl
  | succ n ih => rw [startsList, countAfter_append, ih]; rfl

lemma mem_profile_startsList (cur n : Nat) (h : 1 ≤ n) :
    (cur + n) ∈ profile cur (startsList n) := by
  cases n with
  | zero => omega
  | succ m =>
    rw [startsList, profile_append, countAfter_startsList]
    apply List.mem_append.mpr
    right
    simp [profile, stepCount]
    omega

lemma mem_profile_allAtOnce (n : Nat) (h : 1 ≤ n) :
    n ∈ profile 0 (allAtOnceSchedule n) := by
  rw [allAtOnceSchedule, profile_append]
  apply List.mem_append.mpr
  left
  simpa using mem_profile_startsList 0 n h

lemma foldl_writeFile_fresh (names d0 : List String)
    (hnd : names.Nodup) (hdisj : ∀ nm ∈ names, nm ∉ d0) :
    names.foldl writeFile d0 = d0 ++ names := by
  induction names generalizing d0 with
  | nil => simp
  | cons nm ns ih =>
    rcases List.nodup_cons.mp hnd with ⟨hnmns, hns⟩
    have hnm : nm ∉ d0 := hdisj nm (by simp)
    have hw : writeFile d0 nm = d0 ++ [nm] := by simp [writeFile, hnm]
    have hdisj2 : ∀ m ∈ ns, m ∉ d0 ++ [nm] := by
      intro m hm
      simp only [List.mem_append, List.mem_singleton]
      push_neg
      refine ⟨hdisj m (by simp [hm]), ?_⟩
      rintro rfl
      exact absurd hm hnmns
    rw [List.foldl_cons, hw, ih _ hns hdisj2]
    simp

lemma jobs_foldl_all_ok (jobs : List JobOutcome) (d0 : List String)
    (hok : ∀ o ∈ jobs, o.ok = true) :
    jobs.foldl (fun d o => if o.ok then writeFile d o.outName else d) d0
      = (jobs.map fun o => o.outName).foldl writeFile d0 := by
  induction jobs generalizing d0 with
  | nil => rfl
  | cons o os ih =>
    rw [List.foldl_cons, List.map_cons, List.foldl_cons,
      if_pos (hok o (by simp))]
    exact ih _ fun p hp => hok p (by simp [hp])

lemma string_wrap_inj (p q s t : String) :
    p ++ s ++ q = p ++ t ++ q ↔ s = t := by
  constructor
  · intro h
    have hd : p.data ++ s.data ++ q.data = p.data ++ t.data ++ q.data := by
      have h2 := congrArg String.data h
      simpa [String.data_append] using h2
    have h3 : p.data ++ s.data = p.data ++ t.data :=
      List.append_cancel_right hd
    exact String.ext (List.append_cancel_left h3)
  · intro h
    rw [h]

/-- The pair of derived base names is all that the destination name
depends on. -/
def midName (hook body : UploadedFile) : String :=
  parseNameOf hook.originalname ++ "_" ++ parseNameOf body.originalname

lemma outputName_eq_wrap (hook body : UploadedFile) :
    outputName hook body = "comb_" ++ midName hook body ++ ".mp4" := by
  simp [outputName, midName, String.append_assoc]

/-- When the report and zip steps do not throw, `processVideos` ends in
the `done` branch, whose record and directory listing are explicit. -/
lemma processVideos_ok (env : Env) (taskId : String)
    (hooks bodies : List UploadedFile) (dir0 : List String)
    (hrep : env.reportErr = none) (hzip : env.zipErr = none) :
    processVideos env taskId hooks bodies dir0 =
      ⟨⟨TaskState.done, some ("/results/" ++ taskId ++ ".zip"), none,
          some ((runJobs env (pathJoin resultsDir taskId) hooks bodies).countP
            fun o => o.ok),
          some (hooks.length * bodies.length)⟩,
        runJobs env (pathJoin resultsDir taskId) hooks bodies,
        (hooks ++ bodies).map fun f => f.path,
        some (writeFile
          ((runJobs env (pathJoin resultsDir taskId) hooks bodies).foldl
            (fun d o => if o.ok then writeFile d o.outName else d) dir0)
          "report.txt")⟩ := by
  unfold processVideos
  rw [hrep, hzip]

/-! Claim theorems. -/

/-- C1: for every accepted submission with `H` hooks and `B` bodies
(`H ≥ 1`, `B ≥ 1`), whenever the record `processVideos` finally saves
has status `done`, it reports `total = H * B` and a success count with
`0 ≤ success ≤ total`. -/
theorem c1_done_record_total_and_success
    (env : Env) (taskId : String) (hooks bodies : List UploadedFile)
    (dir0 : List String)
    (_hH : 1 ≤ hooks.length) (_hB : 1 ≤ bodies.length)
    (hdone : (processVideos env taskId hooks bodies dir0).finalStatus.status
      = TaskState.done) :
    (processVideos env taskId hooks bodies dir0).finalStatus.total
        = some (hooks.length * bodies.length)
    ∧ ∃ s, (processVideos env taskId hooks bodies dir0).finalStatus.success = some s
        ∧ s ≤ hooks.length * bodies.length := by
  cases hre : env.reportErr with
  | some m => simp [processVideos, hre] at hdone
  | none =>
    cases hze : env.zipErr with
    | some m => simp [processVideos, hre, hze] at hdone
    | none =>
      rw [processVideos_ok env taskId hooks bodies dir0 hre hze]
      refine ⟨rfl, _, rfl, ?_⟩
      calc (runJobs env (pathJoin resultsDir taskId) hooks bodies).countP
            (fun o => o.ok)
          ≤ (runJobs env (pathJoin resultsDir taskId) hooks bodies).length :=
            List.countP_le_length _
        _ = hooks.length * bodies.length := runJobs_length _ _ _ _

/-- C1 witness: a concrete one-hook, one-body submission in an
all-success environment. -/
theorem c1_witness :
    (processVideos envAllOk "t" [⟨"a.mp4", "ua"⟩] [⟨"b.mp4", "ub"⟩]
        ["status.json"]).finalStatus.total = some (1 * 1)
    ∧ ∃ s, (processVideos envAllOk "t" [⟨"a.mp4", "ua"⟩] [⟨"b.mp4", "ub"⟩]
        ["status.json"]).finalStatus.success = some s ∧ s ≤ 1 * 1 :=
  c1_done_record_total_and_success envAllOk "t" [⟨"a.mp4", "ua"⟩]
    [⟨"b.mp4", "ub"⟩] ["status.json"] (by decide) (by decide) (by decide)

/-- C2: every enumerated job of a batch is attempted, and when every
combine invocation fails (the report and zip steps being the per-job
failures' complement, untouched), the task still reaches `done` with
success count `0` instead of staying `processing`. -/
theorem c2_failures_counted_batch_completes
    (env : Env) (taskId : String) (hooks bodies : List UploadedFile)
    (dir0 : List String)
    (hfail : ∀ hi bi, (env.combineErr hi bi).isSome)
    (hrep : env.reportErr = none) (hzip : env.zipErr = none) :
    (processVideos env taskId hooks bodies dir0).jobs.length
        = hooks.length * bodies.length
    ∧ (processVideos env taskId hooks bodies dir0).finalStatus.status
        = TaskState.done
    ∧ (processVideos env taskId hooks bodies dir0).finalStatus.success = some 0 := by
  have hcount : (runJobs env (pathJoin resultsDir taskId) hooks bodies).countP
      (fun o => o.ok) = 0 := by
    apply List.countP_eq_zero.mpr
    intro o ho
    rcases List.mem_map.mp ho with ⟨j, _, rfl⟩
    have h1 := hfail j.hookIdx j.bodyIdx
    simp only [Bool.not_eq_true]
    cases h2 : env.combineErr j.hookIdx j.bodyIdx with
    | none => rw [h2] at h1; simp at h1
    | some m => simp [h2]
  rw [processVideos_ok env taskId hooks bodies dir0 hrep hzip]
  exact ⟨runJobs_length _ _ _ _, rfl, by rw [hcount]⟩

/-- C2 witness: a concrete one-hook, two-body submission in which every
ffmpeg invocation rejects. -/
theorem c2_witness :
    (processVideos envAllFail "t" [⟨"a.mp4", "ua"⟩]
        [⟨"b.mp4", "ub"⟩, ⟨"c.mp4", "uc"⟩] ["status.json"]).jobs.length = 1 * 2
    ∧ (processVideos envAllFail "t" [⟨"a.mp4", "ua"⟩]
        [⟨"b.mp4", "ub"⟩, ⟨"c.mp4", "uc"⟩] ["status.json"]).finalStatus.status
        = TaskState.done
    ∧ (processVideos envAllFail "t" [⟨"a.mp4", "ua"⟩]
        [⟨"b.mp4", "ub"⟩, ⟨"c.mp4", "uc"⟩] ["status.json"]).finalStatus.success
        = some 0 :=
  c2_failures_counted_batch_completes envAllFail "t" [⟨"a.mp4", "ua"⟩]
    [⟨"b.mp4", "ub"⟩, ⟨"c.mp4", "uc"⟩] ["status.json"]
    (fun _ _ => rfl) rfl rfl

/-- C9: a status lookup for a task identifier that was never submitted
answers not-found, a signal distinct from every valid status response;
a lookup for a submitted, still-running task answers the `processing`
record, which carries no download locator. -/
theorem c9_status_lookup (store : StatusStore) (tid tid2 : String)
    (hnew : store tid = none) :
    statusHandler (store tid) = StatusResp.notFound
    ∧ (∀ r : StatusRecord, StatusResp.notFound ≠ StatusResp.okJson r)
    ∧ statusHandler (storeAfterSubmit store tid2 tid2)
        = StatusResp.okJson processingRecord
    ∧ processingRecord.downloadUrl = none := by
  refine ⟨by rw [hnew]; rfl, ?_, ?_, rfl⟩
  · intro r h
    exact StatusResp.noConfusion h
  · simp [storeAfterSubmit, statusHandler, getStatus]

/-- C9 witness: the empty store and two concrete identifiers. -/
theorem c9_witness :
    statusHandler (emptyStore "t-unknown") = StatusResp.notFound
    ∧ (∀ r : StatusRecord, StatusResp.notFound ≠ StatusResp.okJson r)
    ∧ statusHandler (storeAfterSubmit emptyStore "t-running" "t-running")
        = StatusResp.okJson processingRecord
    ∧ processingRecord.downloadUrl = none :=
  c9_status_lookup emptyStore "t-unknown" "t-running" rfl

/-- C10: when a task's persisted status file exists but does not parse
as JSON, the lookup answers the same not-found signal as for a
never-submitted identifier, not an error and not a stale record. -/
theorem c10_corrupt_status_not_found (msg : String) :
    getStatus (some (Except.error msg)) = none
    ∧ statusHandler (some (Except.error msg)) = StatusResp.notFound
    ∧ statusHandler (some (Except.error msg)) = statusHandler none :=
  ⟨rfl, rfl, rfl⟩

/-- C10 witness: a concrete unparsable status file. -/
theorem c10_witness :
    getStatus (some (Except.error "unexpected token at line 1")) = none
    ∧ statusHandler (some (Except.error "unexpected token at line 1"))
        = StatusResp.notFound
    ∧ statusHandler (some (Except.error "unexpected token at line 1"))
        = statusHandler none :=
  c10_corrupt_status_not_found "unexpected token at line 1"

/-- C3 counterexample: in the `Promise.all` variant a batch of one hook
and three bodies has an instant with three simultaneous ffmpeg
invocations, exceeding the fixed limit of two the specification gives
as its example; no concurrency limit is enforced anywhere in the
code. -/
theorem c3_counterexample :
    (3 : Nat) ∈ profile 0 (combineAllSchedule [⟨"a.mp4", "u1"⟩]
        [⟨"b.mp4", "u2"⟩, ⟨"c.mp4", "u3"⟩, ⟨"d.mp4", "u4"⟩])
    ∧ ¬ ((3 : Nat) ≤ 2) := by decide

/-- C3 amended: the sequential `processVideos` loop of `src/index.js`
never has more than one ffmpeg invocation running, while the
`Promise.all` variant of `src/unnamed/part_000` starts every job
before any completes, so its instantaneous concurrency reaches the
whole job count `H * B` — there is no configured limit. -/
theorem c3_amended_schedules (hooks bodies : List UploadedFile) :
    (∀ c ∈ profile 0 (processVideosSchedule hooks bodies), c ≤ 1)
    ∧ (1 ≤ (jobList hooks bodies).length →
        (jobList hooks bodies).length
          ∈ profile 0 (combineAllSchedule hooks bodies)) :=
  ⟨profile_seqSchedule_le_one _, fun h => mem_profile_allAtOnce _ h⟩

/-- C3 amended witness: two jobs, whose count the all-at-once schedule
reaches. -/
theorem c3_amended_witness :
    (jobList [(⟨"a.mp4", "u1"⟩ : UploadedFile)]
        [⟨"b.mp4", "u2"⟩, ⟨"c.mp4", "u3"⟩]).length
      ∈ profile 0 (combineAllSchedule [⟨"a.mp4", "u1"⟩]
        [⟨"b.mp4", "u2"⟩, ⟨"c.mp4", "u3"⟩]) :=
  (c3_amended_schedules [⟨"a.mp4", "u1"⟩] [⟨"b.mp4", "u2"⟩, ⟨"c.mp4", "u3"⟩]).2
    (by decide)

/-- The attempted jobs of the duplicate-hook-name batch used as the C4
counterexample. -/
def dupNameJobs : List JobOutcome :=
  runJobs envAllOk (pathJoin resultsDir "t")
    [⟨"x.mp4", "u1"⟩, ⟨"x.mp4", "u2"⟩] [⟨"y.mp4", "u3"⟩]

/-- C4 counterexample: two distinct jobs of one task (hook indices 0
and 1) are assigned the same destination path when the two hooks carry
the same original file name, since the name is derived from original
names alone. -/
theorem c4_counterexample :
    (dupNameJobs.getD 0 default).job.hookIdx
        ≠ (dupNameJobs.getD 1 default).job.hookIdx
    ∧ (dupNameJobs.getD 0 default).outPath
        = (dupNameJobs.getD 1 default).outPath
    ∧ (dupNameJobs.getD 0 default).outPath
        = "/tmp/results/t/comb_x_y.mp4" := by decide

/-- C4 amended: the destination name depends only on the derived pair
of original base names — two jobs receive the same destination exactly
when their `hookBase_bodyBase` strings coincide (so uniqueness holds
only for batches whose derived strings are pairwise distinct). -/
theorem c4_amended_names (a b c d : UploadedFile) :
    outputName a b = outputName c d ↔ midName a b = midName c d := by
  rw [outputName_eq_wrap, outputName_eq_wrap]
  exact string_wrap_inj _ _ _ _

/-- C4 amended witness: the underscore-ambiguous pair, where four
pairwise distinct original names still collide. -/
theorem c4_amended_witness :
    (outputName ⟨"a_b.mp4", "u1"⟩ ⟨"c.mp4", "u2"⟩
        = outputName ⟨"a.mp4", "u3"⟩ ⟨"b_c.mp4", "u4"⟩)
      ↔ (midName ⟨"a_b.mp4", "u1"⟩ ⟨"c.mp4", "u2"⟩
        = midName ⟨"a.mp4", "u3"⟩ ⟨"b_c.mp4", "u4"⟩) :=
  c4_amended_names ⟨"a_b.mp4", "u1"⟩ ⟨"c.mp4", "u2"⟩ ⟨"a.mp4", "u3"⟩
    ⟨"b_c.mp4", "u4"⟩

/-- C5 counterexample: a combine invocation whose subprocess fails
after opening the destination (as the 5-minute timeout kill does
mid-encode) rejects while leaving the destination existing and
incomplete — neither complete-and-playable nor absent; the code
performs no cleanup between the failure and the rejection. -/
theorem c5_counterexample :
    (combineVideosFs (FfmpegResult.failedAfterWrite "ffmpeg timeout")
        FileContent.absent).1 = Except.error "ffmpeg timeout"
    ∧ (combineVideosFs (FfmpegResult.failedAfterWrite "ffmpeg timeout")
        FileContent.absent).2 ≠ FileContent.absent
    ∧ (combineVideosFs (FfmpegResult.failedAfterWrite "ffmpeg timeout")
        FileContent.absent).2 ≠ FileContent.complete :=
  ⟨rfl, by decide, by decide⟩

/-- C5 amended: on success the destination holds the complete output;
on failure the code does nothing, so the destination keeps exactly
whatever the subprocess left — previous content when nothing was
written, truncated data when the process died mid-write. -/
theorem c5_amended_no_cleanup (r : FfmpegResult) (prev : FileContent) :
    ((combineVideosFs r prev).1 = Except.ok () →
        (combineVideosFs r prev).2 = FileContent.complete)
    ∧ (∀ m, r = FfmpegResult.failedNoWrite m →
        (combineVideosFs r prev).2 = prev)
    ∧ (∀ m, r = FfmpegResult.failedAfterWrite m →
        (combineVideosFs r prev).2 = FileContent.truncated) := by
  cases r <;> simp [combineVideosFs]

/-- C5 amended witness: the successful invocation at an absent
destination leaves the complete output. -/
theorem c5_amended_witness :
    (combineVideosFs FfmpegResult.wroteComplete FileContent.absent).2
      = FileContent.complete :=
  (c5_amended_no_cleanup FfmpegResult.wroteComplete FileContent.absent).1 rfl

/-- C6 counterexample: in the `src/unnamed/part_000` variant an
accepted submission (one hook, one body) whose report write throws is
answered with a 500 carrying the failure's details — the submission
response itself surfaces the processing failure, after the batch, and
carries no task identifier. -/
theorem c6_counterexample :
    (combineHandler envReportFail "20240101" [⟨"a.mp4", "u1"⟩]
        [⟨"b.mp4", "u2"⟩]).response = CombineResp.serverError "disk full" := by
  decide

/-- C6 amended: the `/upload` handler of `src/index.js` answers every
accepted submission with the immediate 202 acknowledgment carrying the
task identifier, independent of the processing environment, while the
persisted record still says `processing`; the `/combine` handler of
`src/unnamed/part_000` instead answers only after the whole batch and
surfaces fatal processing failures through the submission response. -/
theorem c6_amended_upload_ack (env : Env) (taskId : String)
    (hooks bodies : List UploadedFile)
    (hH : hooks.length ≠ 0) (hB : bodies.length ≠ 0) :
    (uploadSubmit env taskId hooks bodies).response
        = UploadResp.accepted "Upload received" taskId
    ∧ (uploadSubmit env taskId hooks bodies).statusAtResponse
        = some (Except.ok processingRecord) := by
  unfold uploadSubmit
  rw [if_neg]
  · exact ⟨rfl, rfl⟩
  · push_neg
    exact ⟨hH, hB⟩

/-- C6 amended witness: even in an environment whose report step
throws, the concrete submission is acknowledged at once with its task
identifier. -/
theorem c6_amended_witness :
    (uploadSubmit envReportFail "task-1" [⟨"a.mp4", "u1"⟩]
        [⟨"b.mp4", "u2"⟩]).response
        = UploadResp.accepted "Upload received" "task-1"
    ∧ (uploadSubmit envReportFail "task-1" [⟨"a.mp4", "u1"⟩]
        [⟨"b.mp4", "u2"⟩]).statusAtResponse
        = some (Except.ok processingRecord) :=
  c6_amended_upload_ack envReportFail "task-1" [⟨"a.mp4", "u1"⟩]
    [⟨"b.mp4", "u2"⟩] (by decide) (by decide)

/-- C7 counterexample: the second `src/index.js` variant drives a
concrete one-hook, one-body task to the terminal state `done` and
removes no uploaded source file at all. -/
theorem c7_counterexample :
    (processVideos2 envAllOk "t" [⟨"a.mp4", "/tmp/uploads/1_a.mp4"⟩]
        [⟨"b.mp4", "/tmp/uploads/1_b.mp4"⟩] ["status.json"]).finalStatus.status
        = TaskState.done
    ∧ (processVideos2 envAllOk "t" [⟨"a.mp4", "/tmp/uploads/1_a.mp4"⟩]
        [⟨"b.mp4", "/tmp/uploads/1_b.mp4"⟩] ["status.json"]).removed = [] := by
  decide

/-- C7 amended: only the first `src/index.js` variant keeps the
guarantee — its `finally` block removes every uploaded file's path on
every exit path, once each when the stored paths are pairwise
distinct, whether the task ends `done` or `error`. -/
theorem c7_amended_cleanup (env : Env) (taskId : String)
    (hooks bodies : List UploadedFile) (dir0 : List String)
    (hnd : ((hooks ++ bodies).map fun f => f.path).Nodup) :
    (processVideos env taskId hooks bodies dir0).removed
        = (hooks ++ bodies).map (fun f => f.path)
    ∧ ∀ f ∈ hooks ++ bodies,
        ((processVideos env taskId hooks bodies dir0).removed).count f.path = 1 := by
  have hrem : (processVideos env taskId hooks bodies dir0).removed
      = (hooks ++ bodies).map fun f => f.path := by
    unfold processVideos
    cases env.reportErr <;> cases env.zipErr <;> rfl
  refine ⟨hrem, ?_⟩
  intro f hf
  rw [hrem]
  exact List.count_eq_one_of_mem hnd (List.mem_map_of_mem _ hf)

/-- C7 amended witness: a concrete task in the all-fail environment
still removes both uploads exactly once. -/
theorem c7_amended_witness :
    (processVideos envAllFail "t" [⟨"a.mp4", "/tmp/uploads/1_a.mp4"⟩]
        [⟨"b.mp4", "/tmp/uploads/1_b.mp4"⟩] ["status.json"]).removed
        = ([⟨"a.mp4", "/tmp/uploads/1_a.mp4"⟩, ⟨"b.mp4", "/tmp/uploads/1_b.mp4"⟩]
            : List UploadedFile).map (fun f => f.path)
    ∧ ∀ f ∈ ([⟨"a.mp4", "/tmp/uploads/1_a.mp4"⟩] : List UploadedFile)
          ++ [⟨"b.mp4", "/tmp/uploads/1_b.mp4"⟩],
        ((processVideos envAllFail "t" [⟨"a.mp4", "/tmp/uploads/1_a.mp4"⟩]
          [⟨"b.mp4", "/tmp/uploads/1_b.mp4"⟩] ["status.json"]).removed).count f.path
          = 1 :=
  c7_amended_cleanup envAllFail "t" [⟨"a.mp4", "/tmp/uploads/1_a.mp4"⟩]
    [⟨"b.mp4", "/tmp/uploads/1_b.mp4"⟩] ["status.json"] (by decide)

/-- C8 counterexample: a concrete one-hook, one-body task in which the
single combine succeeds reports `success = total = 1`, yet the
directory zipped into the archive holds three entries — the output
file, the report, and the task's `status.json`, which `saveStatus`
wrote inside the very directory the packager zips — not the claimed
`total + 1 = 2`. -/
theorem c8_counterexample :
    (processVideos envAllOk "t" [⟨"a.mp4", "ua"⟩] [⟨"b.mp4", "ub"⟩]
        ["status.json"]).finalStatus.success = some 1
    ∧ (processVideos envAllOk "t" [⟨"a.mp4", "ua"⟩] [⟨"b.mp4", "ub"⟩]
        ["status.json"]).finalStatus.total = some 1
    ∧ (processVideos envAllOk "t" [⟨"a.mp4", "ua"⟩] [⟨"b.mp4", "ub"⟩]
        ["status.json"]).zipEntries
        = some ["status.json", "comb_a_b.mp4", "report.txt"]
    ∧ (["status.json", "comb_a_b.mp4", "report.txt"] : List String).length
        ≠ 1 + 1 := by decide

/-- C8 amended: when every combine succeeds and the derived output
names are pairwise distinct and distinct from the two bookkeeping
files, the `done` record reports `success = total` and the zipped
directory holds exactly the `total` output files, the report, and the
task's `status.json`. -/
theorem c8_amended_archive (env : Env) (taskId : String)
    (hooks bodies : List UploadedFile)
    (hok : ∀ hi bi, env.combineErr hi bi = none)
    (hrep : env.reportErr = none) (hzip : env.zipErr = none)
    (hnames : ((jobList hooks bodies).map fun j =>
        outputName j.hook j.body).Nodup)
    (hfresh : ∀ j ∈ jobList hooks bodies,
        outputName j.hook j.body ≠ "status.json"
        ∧ outputName j.hook j.body ≠ "report.txt") :
    (processVideos env taskId hooks bodies ["status.json"]).finalStatus.success
        = some (hooks.length * bodies.length)
    ∧ (processVideos env taskId hooks bodies ["status.json"]).zipEntries
        = some ("status.json"
            :: ((jobList hooks bodies).map fun j => outputName j.hook j.body)
            ++ ["report.txt"]) := by
  have hall : ∀ o ∈ runJobs env (pathJoin resultsDir taskId) hooks bodies,
      o.ok = true := by
    intro o ho
    rcases List.mem_map.mp ho with ⟨j, _, rfl⟩
    show (env.combineErr j.hookIdx j.bodyIdx).isNone = true
    rw [hok j.hookIdx j.bodyIdx]
    rfl
  have hcnt : (runJobs env (pathJoin resultsDir taskId) hooks bodies).countP
      (fun o => o.ok) = hooks.length * bodies.length := by
    rw [List.countP_eq_length.mpr hall, runJobs_length]
  have hmapnames : (runJobs env (pathJoin resultsDir taskId) hooks
        bodies).map (fun o => o.outName)
      = (jobList hooks bodies).map fun j => outputName j.hook j.body := by
    simp only [runJobs, List.map_map]
    rfl
  have hdisj : ∀ nm ∈ (jobList hooks bodies).map
      (fun j => outputName j.hook j.body),
      nm ∉ (["status.json"] : List String) := by
    intro nm hnm
    rcases List.mem_map.mp hnm with ⟨j, hj, rfl⟩
    simp [(hfresh j hj).1]
  have hfold : (runJobs env (pathJoin resultsDir taskId) hooks bodies).foldl
        (fun d o => if o.ok then writeFile d o.outName else d) ["status.json"]
      = ["status.json"]
          ++ (jobList hooks bodies).map fun j => outputName j.hook j.body := by
    rw [jobs_foldl_all_ok _ _ hall, hmapnames,
      foldl_writeFile_fresh _ _ hnames hdisj]
  have hrt : "report.txt" ∉ ("status.json"
      :: (jobList hooks bodies).map fun j => outputName j.hook j.body) := by
    intro hmem
    rcases List.mem_cons.mp hmem with h | h
    · exact absurd h (by decide)
    · rcases List.mem_map.mp h with ⟨j, hj, hje⟩
      exact (hfresh j hj).2 hje
  rw [processVideos_ok env taskId hooks bodies ["status.json"] hrep hzip]
  refine ⟨by rw [hcnt], ?_⟩
  show some (writeFile _ "report.txt") = _
  rw [hfold]
  simp only [List.singleton_append]
  rw [writeFile, if_neg hrt]

/-- C8 amended witness: the concrete all-success, one-by-one task. -/
theorem c8_amended_witness :
    (processVideos envAllOk "t" [⟨"a.mp4", "ua"⟩] [⟨"b.mp4", "ub"⟩]
        ["status.json"]).finalStatus.success = some (1 * 1)
    ∧ (processVideos envAllOk "t" [⟨"a.mp4", "ua"⟩] [⟨"b.mp4", "ub"⟩]
        ["status.json"]).zipEntries
        = some ("status.json"
            :: ((jobList [⟨"a.mp4", "ua"⟩] [⟨"b.mp4", "ub"⟩]).map fun j =>
              outputName j.hook j.body)
            ++ ["report.txt"]) :=
  c8_amended_archive envAllOk "t" [⟨"a.mp4", "ua"⟩] [⟨"b.mp4", "ub"⟩]
    (fun _ _ => rfl) rfl rfl (by decide) (by decide)

end VideoMixer
